import Mathlib

/-!
Shallow embedding of `src/pipe/data_processing.py` and `src/pipe/query_commits.py`
from the preconf_analytics_duckdb repository.

The DuckDB store is modelled as an association list from table names to tables.
An event record (`Row`) is typed: it carries the `commitmentIndex` key, the
`block_number` column, and an opaque numeric payload standing for the remaining
columns.  SQL strings executed by the Python code are translated into the
corresponding list operations; status strings are reproduced verbatim.
-/

namespace PreconfAnalytics

/-- An event record of one of the three base tables: a `commitmentIndex` key,
a `block_number` column and an opaque payload standing for the other columns. -/
structure Row where
  commitmentIndex : Nat
  block_number : Nat
  payload : Nat
deriving DecidableEq, Repr

/-- A DuckDB table: a bag of rows. -/
abbrev Table := List Row

/-- The DuckDB database file: an association list from table names to tables.
`List.lookup` (first match) models name resolution. -/
abbrev Store := List (String × Table)

/-- The `commitmentIndex` column of a table. -/
def keyCol (t : Table) : List Nat := t.map (·.commitmentIndex)

/-- The query `SELECT MAX(block_column) FROM t` followed by Python's
`int(result) if result is not None else 0`: the maximum of the block column,
`0` for an empty table. -/
def maxBlock (t : Table) : Nat := (t.map (·.block_number)).foldr max 0

/-- Source `get_latest_block_number(table_name, block_column, db_filename)`
(`data_processing.py` lines 106-125): `0` when the table is absent from
`information_schema.tables`, otherwise `MAX(block_column)` with `NULL ↦ 0`.
Rows are typed, so the `block_column` name argument selects the one numeric
`block_number` field. -/
def get_latest_block_number (table_name : String) (_block_column : String)
    (store : Store) : Nat :=
  match store.lookup table_name with
  | none => 0
  | some t => maxBlock t

/-- Overwrite the table stored under `name` (`INSERT INTO name ...` rewrites
the one table of that name; names are unique keys in SQL). -/
def updateTable (store : Store) (name : String) (t : Table) : Store :=
  store.map (fun p => if p.1 = name then (p.1, t) else p)

/-- The anti-join insert of `write_to_duckdb` (lines 154-163):
`SELECT new.* FROM df_temp AS new LEFT JOIN existing USING(commitmentIndex)
WHERE existing.commitmentIndex IS NULL` keeps exactly the incoming rows whose
`commitmentIndex` is absent from the existing table. -/
def antiJoinRows (df : Table) (existing : Table) : Table :=
  df.filter (fun r => decide (r.commitmentIndex ∉ keyCol existing))

/-- Source `write_to_duckdb(df, table_name, db_filename)` (lines 128-169).
Returns the new store and the status string. Empty input: no-op. Missing
table: `CREATE TABLE AS SELECT * FROM df_temp` (the rows verbatim). Existing
table: dedup-append via the anti-join on `commitmentIndex`; the status string
reports the attempted-insert count `len(df)`, exactly as the source does. -/
def write_to_duckdb (df : Table) (table_name : String) (store : Store) :
    Store × String :=
  if df.isEmpty then
    (store, table_name ++ ": no new data")
  else
    match store.lookup table_name with
    | none =>
        ((table_name, df) :: store,
         table_name ++ ": created table with " ++ toString df.length ++ " records")
    | some existing =>
        (updateTable store table_name (existing ++ antiJoinRows df existing),
         table_name ++ ": inserted " ++ toString df.length ++ " new records")

/-!
## Join engine (`join_dataframes`, lines 57-103)

The three input tables are typed.  The schemas of `encrypted_stores` and
`commit_stores` come from the external event-query client's column mapping, so
the columns the join does not touch are abstracted as opaque `rest` payloads.
The columns the join reads or writes are explicit: `commitmentIndex` (join
key), `block_number` (renamed to `block_number_encrypted`; after the first
inner join the unsuffixed `block_number` and `txnHash` columns are the left
frame's, i.e. `encrypted_stores`'), `txnHash` (a character string, modelled as
`List Char`), and `isSlash` from `commits_processed`.
-/

/-- A row of `encrypted_stores`. -/
structure EncRow (α : Type) where
  commitmentIndex : Nat
  block_number : Nat
  txnHash : List Char
  rest : α
deriving DecidableEq, Repr

/-- A row of `commit_stores`. -/
structure CommitRow (β : Type) where
  commitmentIndex : Nat
  rest : β
deriving DecidableEq, Repr

/-- A row of `commits_processed`. -/
structure ProcRow (γ : Type) where
  commitmentIndex : Nat
  isSlash : Bool
  rest : γ
deriving DecidableEq, Repr

/-- A row of the final commitments view.  Besides the four columns the join
manipulates, it carries the untouched columns of the two left tables. -/
structure Commitment (α β : Type) where
  block_number_encrypted : Nat
  txnHash : List Char
  commitmentIndex : Nat
  isSlash : Bool
  encRest : α
  commitRest : β
deriving DecidableEq, Repr

/-- Polars `left.join(right, on=key, how="inner")`: every pair of rows whose
keys agree, in left-major order. -/
def joinBy {X Y Z : Type} (keyX : X → Nat) (keyY : Y → Nat) (f : X → Y → Z)
    (A : List X) (B : List Y) : List Z :=
  A.flatMap (fun a => (B.filter (fun b => keyY b == keyX a)).map (f a))

/-- Step 1 of `join_dataframes`: inner join of `encrypted_stores` and
`commit_stores` on `commitmentIndex` (line 67). -/
def join_ec {α β : Type} (A : List (EncRow α)) (B : List (CommitRow β)) :
    List (EncRow α × CommitRow β) :=
  joinBy (fun a => a.commitmentIndex) (fun b => b.commitmentIndex) Prod.mk A B

/-- Step 2: `with_columns((pl.lit("0x") + pl.col("txnHash")).alias("txnHash"))`
(line 68) — unconditionally prepend `"0x"` to the `txnHash` column. -/
def add0x {α β : Type} (rows : List (EncRow α × CommitRow β)) :
    List (EncRow α × CommitRow β) :=
  rows.map (fun p => ({ p.1 with txnHash := '0' :: 'x' :: p.1.txnHash }, p.2))

/-- Step 3's projection `commits_processed_df.select("commitmentIndex", "isSlash")` (line 70). -/
def proc_select {γ : Type} (C : List (ProcRow γ)) : List (Nat × Bool) :=
  C.map (fun c => (c.commitmentIndex, c.isSlash))

/-- Assembling one output row from a joined `encrypted_stores`/`commit_stores`
pair and a projected `commits_processed` pair: the rename of `block_number` to
`block_number_encrypted` (lines 77-79) and the final column selection (lines
82-101). -/
def mk_commitment {α β : Type} (p : EncRow α × CommitRow β) (q : Nat × Bool) :
    Commitment α β :=
  { block_number_encrypted := p.1.block_number
    txnHash := p.1.txnHash
    commitmentIndex := p.1.commitmentIndex
    isSlash := q.2
    encRest := p.1.rest
    commitRest := p.2.rest }

/-- Steps 3-5: inner join with the projected `commits_processed` (lines 69-74),
rename `block_number` to `block_number_encrypted` (lines 77-79) and project to
the fixed column list (lines 82-101), assembled as a `Commitment`. -/
def join_dataframes {α β γ : Type} (A : List (EncRow α)) (B : List (CommitRow β))
    (C : List (ProcRow γ)) : List (Commitment α β) :=
  joinBy (fun p => p.1.commitmentIndex) (fun q => q.1) mk_commitment
    (add0x (join_ec A B)) (proc_select C)

/-- The column list of the final `select` (lines 82-101), verbatim and in
source order. -/
def commitments_columns : List String :=
  ["block_number_encrypted", "timestamp", "txnHash", "bid", "commiter",
   "bidder", "isSlash", "decayStartTimeStamp", "decayEndTimeStamp",
   "dispatchTimestamp", "commitmentHash", "commitmentIndex",
   "commitmentDigest", "commitmentSignature", "revertingTxHashes", "bidHash",
   "bidSignature", "sharedSecretKey"]

/-!
## Retry-wrapped reads (`read_db` lines 172-219, `read_single_table` lines
222-266) and the top-level load-and-join path (`load_and_join_data` lines 8-31)

One execution of the `try` block (connect, run the `SELECT`s) is abstracted as
an oracle `env : Nat → Attempt α` giving the outcome of attempt number `n`
(the source's `attempt` counter, which counts lock conflicts so far).  Delays
are exact rationals; `time.sleep` is modelled by accumulating the slept
amounts.  The `while attempt < max_retries` loop with `attempt` starting at
`0` and incremented once per lock conflict runs at most `max(max_retries, 0)`
iterations, which is the structural fuel of `readLoop`.
-/

/-- Outcome of one attempt of the `try` block: a successful read of `a`, an
`IOException` matching the lock-conflict test of line 207, or any other
exception (re-raised at line 216). -/
inductive Attempt (α : Type) where
  | ok (a : α)
  | lockConflict
  | otherError
deriving DecidableEq, Repr

/-- Observable outcome of a retry-wrapped read.  `success` records the result,
the number of attempts made and the total time slept; `lockFailure` is the
terminal `Exception` of lines 217-219 / 264-266, carrying the information the
message names (`ε` is the database filename for `read_db`, table and filename
for `read_single_table`, plus `max_retries`) and the total time slept;
`ioError` is a non-lock `IOException` propagating uncaught. -/
inductive ReadResult (α ε : Type) where
  | success (a : α) (attemptsMade : Nat) (totalWait : ℚ)
  | lockFailure (info : ε) (maxRetries : Int) (totalWait : ℚ)
  | ioError (totalWait : ℚ)
deriving DecidableEq, Repr

/-- The shared retry loop body of `read_db` and `read_single_table`:
`fuel` iterations of the `while` remain, `attempt` lock conflicts have
happened, the next sleep lasts `delay`, and `waited` has been slept so far. -/
def readLoop {α ε : Type} (info : ε) (env : Nat → Attempt α)
    (maxRetries : Int) (backoff_factor : ℚ) :
    Nat → Nat → ℚ → ℚ → ReadResult α ε
  | 0, _, _, waited => .lockFailure info maxRetries waited
  | fuel + 1, attempt, delay, waited =>
      match env attempt with
      | .ok a => .success a (attempt + 1) waited
      | .lockConflict =>
          readLoop info env maxRetries backoff_factor fuel (attempt + 1)
            (delay * backoff_factor) (waited + delay)
      | .otherError => .ioError waited

/-- Source `read_db(db_filename, tables, max_retries, initial_delay, backoff_factor)`
(lines 172-219).  `tables` only shapes the `SELECT`s inside the `try` block,
which the oracle already abstracts. -/
def read_db {α : Type} (db_filename : String) (_tables : List String)
    (env : Nat → Attempt α) (max_retries : Int) (initial_delay : ℚ)
    (backoff_factor : ℚ) : ReadResult α String :=
  readLoop db_filename env max_retries backoff_factor max_retries.toNat 0
    initial_delay 0

/-- Source `read_single_table(db_filename, table, ...)` (lines 222-266): identical
loop; the terminal error names the table as well as the database. -/
def read_single_table {α : Type} (db_filename : String) (table : String)
    (env : Nat → Attempt α) (max_retries : Int) (initial_delay : ℚ)
    (backoff_factor : ℚ) : ReadResult α (String × String) :=
  readLoop (table, db_filename) env max_retries backoff_factor
    max_retries.toNat 0 initial_delay 0

/-- The sum `1 + f + f^2 + ... + f^(n-1)`: the geometric series the slept delays sum
to, scaled by `initial_delay`. -/
def geomSeries (f : ℚ) : Nat → ℚ
  | 0 => 0
  | n + 1 => 1 + f * geomSeries f n

/-- Source `load_and_join_data(db_filename, tables)` (lines 8-31): `read_db` with its
default retry parameters, then `join_dataframes`; any exception of either step
is caught at the top level and converted to an empty DataFrame (line 31). -/
def load_and_join_data {α β γ : Type} (db_filename : String)
    (tables : List String)
    (env : Nat → Attempt (List (EncRow α) × List (CommitRow β) × List (ProcRow γ))) :
    List (Commitment α β) :=
  match read_db db_filename tables env 5 1 2 with
  | .success dfs _ _ => join_dataframes dfs.1 dfs.2.1 dfs.2.2
  | .lockFailure _ _ _ => []
  | .ioError _ => []

/-!
## Sync orchestrator (`get_events`, `query_commits.py` lines 43-121)

One cycle of `get_events`: read each table's cursor from the store, fetch new
events from `cursor + 1` (the external query client is the oracle `fetch`; its
`ValueError` path already normalises to an empty DataFrame in the source),
then `write_to_duckdb` each fetched DataFrame in turn.
-/

/-- Fetch start position: `from_block = latest_blocks.get(table_name, 0) + 1`
(`query_commits.py` line 90). -/
def from_block (table_name : String) (block_column : String) (store : Store) :
    Nat :=
  get_latest_block_number table_name block_column store + 1

/-- One `get_events` cycle, writes only: cursors are computed first against
the cycle's initial store (lines 74-81), fetches use `cursor + 1` (lines
87-103), and the per-table writes are applied sequentially (lines 107-111). -/
def cycle_writes (fetch : String → Nat → Table) (tables : List (String × String))
    (store : Store) : Store :=
  let dfs := tables.map (fun t => (t.1, fetch t.1 (from_block t.1 t.2 store)))
  dfs.foldl (fun st p => (write_to_duckdb p.2 p.1 st).1) store

/-! ## Store lemmas -/

theorem lookup_cons_self {β : Type} (k : String) (v : β) (es : List (String × β)) :
    ((k, v) :: es).lookup k = some v := by
  simp [List.lookup]

theorem lookup_cons_ne {β : Type} (k k' : String) (v : β) (es : List (String × β))
    (h : k' ≠ k) : ((k, v) :: es).lookup k' = es.lookup k' := by
  have hb : (k' == k) = false := by simpa using h
  simp [List.lookup, hb]

theorem updateTable_cons (k : String) (w : Table) (es : Store) (name : String)
    (t : Table) :
    updateTable ((k, w) :: es) name t
      = (if k = name then (k, t) else (k, w)) :: updateTable es name t := by
  simp [updateTable]

theorem lookup_updateTable_self (store : Store) (name : String) (t v : Table)
    (h : store.lookup name = some v) :
    (updateTable store name t).lookup name = some t := by
  induction store with
  | nil => simp [List.lookup] at h
  | cons p es ih =>
      obtain ⟨k, w⟩ := p
      rw [updateTable_cons]
      by_cases hk : name = k
      · subst hk
        rw [if_pos rfl]
        exact lookup_cons_self name t (updateTable es name t)
      · have hk2 : ¬ k = name := fun e => hk e.symm
        rw [if_neg hk2, lookup_cons_ne _ _ _ _ hk]
        rw [lookup_cons_ne _ _ _ _ hk] at h
        exact ih h

theorem lookup_updateTable_ne (store : Store) (name name' : String) (t : Table)
    (h : name' ≠ name) :
    (updateTable store name t).lookup name' = store.lookup name' := by
  induction store with
  | nil => simp [updateTable]
  | cons p es ih =>
      obtain ⟨k, w⟩ := p
      rw [updateTable_cons]
      by_cases hk : k = name
      · subst hk
        rw [if_pos rfl, lookup_cons_ne _ _ _ _ h, lookup_cons_ne _ _ _ _ h, ih]
      · rw [if_neg hk]
        by_cases hk' : name' = k
        · subst hk'
          rw [lookup_cons_self, lookup_cons_self]
        · rw [lookup_cons_ne _ _ _ _ hk', lookup_cons_ne _ _ _ _ hk', ih]

theorem updateTable_of_lookup_none (store : Store) (name : String) (t : Table)
    (h : store.lookup name = none) : updateTable store name t = store := by
  induction store with
  | nil => rfl
  | cons p es ih =>
      obtain ⟨k, w⟩ := p
      rw [updateTable_cons]
      by_cases hk : name = k
      · subst hk
        rw [lookup_cons_self] at h
        cases h
      · have hk2 : ¬ k = name := fun e => hk e.symm
        rw [lookup_cons_ne _ _ _ _ hk] at h
        rw [if_neg hk2, ih h]

theorem updateTable_updateTable (store : Store) (name : String) (t u : Table) :
    updateTable (updateTable store name t) name u = updateTable store name u := by
  simp only [updateTable, List.map_map]
  apply List.map_congr_left
  intro p _
  by_cases hk : p.1 = name <;> simp [hk]

theorem keyCol_append (t u : Table) : keyCol (t ++ u) = keyCol t ++ keyCol u :=
  List.map_append _ _ _

theorem antiJoinRows_nil_table (df : Table) : antiJoinRows df [] = df := by
  simp [antiJoinRows, keyCol]

/-- Rows surviving the anti-join against `existing` all carry keys that are
fresh for `existing` — and present in the anti-join's own output; so a second
anti-join of `df` against `existing ++ antiJoinRows df existing` keeps
nothing. -/
theorem antiJoinRows_self_append (df existing : Table) :
    antiJoinRows df (existing ++ antiJoinRows df existing) = [] := by
  rw [antiJoinRows, List.filter_eq_nil_iff]
  intro r hr
  simp only [decide_eq_true_eq, Decidable.not_not]
  rw [keyCol_append]
  by_cases hmem : r.commitmentIndex ∈ keyCol existing
  · exact List.mem_append_left _ hmem
  · refine List.mem_append_right _ ?_
    refine List.mem_map_of_mem _ ?_
    exact List.mem_filter.mpr ⟨hr, by simpa using hmem⟩

/-- C1: dedup-append is idempotent: writing a non-empty row set twice leaves
the whole store (in particular the written table and its row count) identical
to writing it once — the second call's anti-join inserts no rows. -/
theorem C1_write_to_duckdb_idempotent (df : Table) (name : String) (store : Store)
    (h : df ≠ []) :
    (write_to_duckdb df name (write_to_duckdb df name store).1).1
      = (write_to_duckdb df name store).1 := by
  have hne : df.isEmpty = false := by simpa [List.isEmpty_iff] using h
  cases hlk : store.lookup name with
  | none =>
      have h0 : antiJoinRows df df = [] := by
        have := antiJoinRows_self_append df []
        rwa [antiJoinRows_nil_table, List.nil_append] at this
      simp only [write_to_duckdb, hne, Bool.false_eq_true, if_false, hlk,
        lookup_cons_self, h0, List.append_nil]
      rw [updateTable_cons, if_pos rfl, updateTable_of_lookup_none store name df hlk]
  | some existing =>
      simp only [write_to_duckdb, hne, Bool.false_eq_true, if_false, hlk]
      rw [lookup_updateTable_self store name _ existing hlk]
      simp only [antiJoinRows_self_append df existing, List.append_nil,
        updateTable_updateTable]

/-- C1 witness: a concrete one-row write into an empty store. -/
theorem C1_write_to_duckdb_idempotent_witness :
    (write_to_duckdb [⟨1, 2, 3⟩] "t" (write_to_duckdb [⟨1, 2, 3⟩] "t" []).1).1
      = (write_to_duckdb [⟨1, 2, 3⟩] "t" []).1 :=
  C1_write_to_duckdb_idempotent [⟨1, 2, 3⟩] "t" [] (by decide)

/-! ## `get_latest_block_number` (C3) -/

theorem maxBlock_cons (r : Row) (t : Table) :
    maxBlock (r :: t) = max r.block_number (maxBlock t) := rfl

theorem le_maxBlock (t : Table) : ∀ r ∈ t, r.block_number ≤ maxBlock t := by
  induction t with
  | nil => intro r hr; cases hr
  | cons a t ih =>
      intro r hr
      rw [maxBlock_cons]
      rcases List.mem_cons.mp hr with h | h
      · exact h ▸ le_max_left _ _
      · exact le_trans (ih r h) (le_max_right _ _)

theorem maxBlock_mem (t : Table) (h : t ≠ []) :
    ∃ r ∈ t, maxBlock t = r.block_number := by
  induction t with
  | nil => exact absurd rfl h
  | cons a t ih =>
      cases t with
      | nil =>
          exact ⟨a, List.mem_cons_self a [], by simp [maxBlock]⟩
      | cons b t' =>
          obtain ⟨r, hr, hmax⟩ := ih (by simp)
          by_cases hab : a.block_number ≤ maxBlock (b :: t')
          · exact ⟨r, List.mem_cons_of_mem a hr,
              by rw [maxBlock_cons, max_eq_right hab, hmax]⟩
          · exact ⟨a, List.mem_cons_self a _,
              by rw [maxBlock_cons, max_eq_left (le_of_not_le hab)]⟩

/-- C3: `get_latest_block_number` returns `0` for a missing table, `0` for an
existing empty table, and otherwise the true maximum of the block column
(an upper bound on every row, attained by some row).  In the embedding it is
a total function, so no code path of it raises. -/
theorem C3_get_latest_block_number_spec (name col : String) (store : Store) :
    (store.lookup name = none → get_latest_block_number name col store = 0)
    ∧ (store.lookup name = some [] → get_latest_block_number name col store = 0)
    ∧ ∀ t, store.lookup name = some t → t ≠ [] →
        (∀ r ∈ t, r.block_number ≤ get_latest_block_number name col store)
        ∧ ∃ r ∈ t, get_latest_block_number name col store = r.block_number := by
  refine ⟨fun h => ?_, fun h => ?_, fun t ht hne => ?_⟩
  · simp [get_latest_block_number, h]
  · simp [get_latest_block_number, h, maxBlock]
  · rw [get_latest_block_number, ht]
    exact ⟨le_maxBlock t, maxBlock_mem t hne⟩

/-- C3 witness: a missing table, an empty table, and a two-row table whose
maximum block number is attained by its second row. -/
theorem C3_get_latest_block_number_spec_witness :
    get_latest_block_number "u" "block_number" [("t", [⟨1, 5, 0⟩])] = 0
    ∧ get_latest_block_number "e" "block_number" [("e", [])] = 0
    ∧ ∃ r ∈ [Row.mk 1 5 0, Row.mk 2 9 0],
        get_latest_block_number "t" "block_number"
          [("t", [⟨1, 5, 0⟩, ⟨2, 9, 0⟩])] = r.block_number :=
  ⟨(C3_get_latest_block_number_spec "u" "block_number" _).1 (by decide),
   (C3_get_latest_block_number_spec "e" "block_number" _).2.1 (by decide),
   ((C3_get_latest_block_number_spec "t" "block_number" _).2.2 _
      (by decide) (by decide)).2⟩

/-! ## Uniqueness of `commitmentIndex` after a write (C5)

The anti-join dedups the incoming rows only against the *existing* table, not
against each other, and the create path inserts the incoming rows verbatim; so
an incoming batch that itself repeats a `commitmentIndex` defeats the
invariant.  Under the extra hypothesis that the incoming batch's keys are
distinct (and the stored table's were), the invariant does hold. -/

/-- C5 counterexample: a batch carrying the same `commitmentIndex` twice is
stored verbatim by the create path, so the stored table repeats the key. -/
theorem C5_counterexample :
    ((write_to_duckdb [⟨7, 1, 0⟩, ⟨7, 1, 1⟩] "t" []).1).lookup "t"
      = some [⟨7, 1, 0⟩, ⟨7, 1, 1⟩]
    ∧ ¬ (keyCol [Row.mk 7 1 0, Row.mk 7 1 1]).Nodup := by decide

/-- C5 (amended): if the incoming batch has pairwise-distinct
`commitmentIndex` values and the stored table under `name` (if any) does too,
then after `write_to_duckdb` the table stored under `name` still has
pairwise-distinct `commitmentIndex` values — on both the create path and the
dedup-append path. -/
theorem C5_commitmentIndex_unique_after_write (df : Table) (name : String)
    (store : Store) (hdf : (keyCol df).Nodup)
    (hstore : ∀ t, store.lookup name = some t → (keyCol t).Nodup) :
    ∀ t', ((write_to_duckdb df name store).1).lookup name = some t' →
      (keyCol t').Nodup := by
  intro t' ht'
  by_cases hemp : df.isEmpty
  · rw [write_to_duckdb, if_pos hemp] at ht'
    exact hstore t' ht'
  · rw [write_to_duckdb, if_neg hemp] at ht'
    cases hlk : store.lookup name with
    | none =>
        rw [hlk] at ht'
        simp only at ht'
        rw [lookup_cons_self] at ht'
        cases ht'
        exact hdf
    | some existing =>
        rw [hlk] at ht'
        simp only at ht'
        rw [lookup_updateTable_self store name _ existing hlk] at ht'
        cases ht'
        rw [keyCol_append]
        refine List.Nodup.append (hstore existing hlk) ?_ ?_
        · exact List.Nodup.sublist
            (List.Sublist.map _ (List.filter_sublist df)) hdf
        · intro k hkE hkNew
          obtain ⟨r, hr, hrk⟩ := List.mem_map.mp hkNew
          have := (List.mem_filter.mp hr).2
          rw [decide_eq_true_eq] at this
          exact this (hrk ▸ hkE)

/-- C5 witness for the amended claim: a duplicate-free batch appended onto a
one-row table yields a stored table with distinct keys. -/
theorem C5_commitmentIndex_unique_after_write_witness :
    (keyCol [Row.mk 3 5 0, Row.mk 1 1 0, Row.mk 2 2 0]).Nodup :=
  C5_commitmentIndex_unique_after_write
    [⟨1, 1, 0⟩, ⟨2, 2, 0⟩, ⟨3, 9, 9⟩] "t" [("t", [⟨3, 5, 0⟩])]
    (by decide)
    (fun t ht => by
      have h1 : List.lookup "t" [("t", [Row.mk 3 5 0])] = some [Row.mk 3 5 0] := by
        decide
      rw [h1] at ht
      cases ht
      decide)
    _ (by decide)

/-! ## Cursor monotonicity (C6) -/

theorem get_latest_of_lookup_none (name col : String) (store : Store)
    (h : store.lookup name = none) :
    get_latest_block_number name col store = 0 := by
  rw [get_latest_block_number, h]

theorem get_latest_of_lookup_some (name col : String) (store : Store) (t : Table)
    (h : store.lookup name = some t) :
    get_latest_block_number name col store = maxBlock t := by
  rw [get_latest_block_number, h]

theorem maxBlock_append (t u : Table) :
    maxBlock (t ++ u) = max (maxBlock t) (maxBlock u) := by
  induction t with
  | nil =>
      show maxBlock u = max (maxBlock []) (maxBlock u)
      rw [show maxBlock [] = 0 from rfl, Nat.max_comm, Nat.max_zero]
  | cons a t ih =>
      rw [List.cons_append, maxBlock_cons, maxBlock_cons, ih, Nat.max_assoc]

/-- A single `write_to_duckdb` never decreases any table's cursor. -/
theorem get_latest_write_mono (name col : String) (df : Table) (tname : String)
    (store : Store) :
    get_latest_block_number name col store
      ≤ get_latest_block_number name col (write_to_duckdb df tname store).1 := by
  rw [write_to_duckdb]
  by_cases hemp : df.isEmpty
  · rw [if_pos hemp]
  · rw [if_neg hemp]
    cases hlk : store.lookup tname with
    | none =>
        show get_latest_block_number name col store
          ≤ get_latest_block_number name col ((tname, df) :: store)
        by_cases hn : name = tname
        · subst hn
          rw [get_latest_of_lookup_none name col store hlk]
          exact Nat.zero_le _
        · rw [get_latest_block_number, get_latest_block_number,
            lookup_cons_ne _ _ _ _ hn]
    | some existing =>
        show get_latest_block_number name col store ≤ get_latest_block_number
          name col (updateTable store tname (existing ++ antiJoinRows df existing))
        by_cases hn : name = tname
        · subst hn
          rw [get_latest_of_lookup_some name col store existing hlk,
            get_latest_of_lookup_some name col _ _
              (lookup_updateTable_self store name _ existing hlk),
            maxBlock_append]
          exact le_max_left _ _
        · rw [get_latest_block_number, get_latest_block_number,
            lookup_updateTable_ne store tname name _ hn]

/-- A sequence of `write_to_duckdb` calls never decreases any table's cursor. -/
theorem get_latest_foldl_write_mono (name col : String)
    (ps : List (String × Table)) :
    ∀ store : Store,
      get_latest_block_number name col store
        ≤ get_latest_block_number name col
            (ps.foldl (fun st p => (write_to_duckdb p.2 p.1 st).1) store) := by
  induction ps with
  | nil => intro store; exact le_refl _
  | cons p ps ih =>
      intro store
      exact le_trans (get_latest_write_mono name col p.2 p.1 store)
        (ih (write_to_duckdb p.2 p.1 store).1)

/-- C6: across one `get_events` cycle the per-table cursor is monotonically
non-decreasing; each fetch starts at `cursor + 1`; and `write_to_duckdb` only
appends — an existing table's rows are a prefix of its rows after any write. -/
theorem C6_cursor_monotone (fetch : String → Nat → Table)
    (tables : List (String × String)) (store : Store) (name col : String) :
    (get_latest_block_number name col store
        ≤ get_latest_block_number name col (cycle_writes fetch tables store))
    ∧ (∀ tname bcol st, from_block tname bcol st
        = get_latest_block_number tname bcol st + 1)
    ∧ ∀ df tname t, store.lookup name = some t →
        ∃ extra, ((write_to_duckdb df tname store).1).lookup name
          = some (t ++ extra) := by
  refine ⟨get_latest_foldl_write_mono name col _ store,
    fun _ _ _ => rfl, fun df tname t ht => ?_⟩
  rw [write_to_duckdb]
  by_cases hemp : df.isEmpty
  · rw [if_pos hemp]
    exact ⟨[], by rw [List.append_nil]; exact ht⟩
  · rw [if_neg hemp]
    cases hlk : store.lookup tname with
    | none =>
        have hn : name ≠ tname := fun e => by rw [e, hlk] at ht; cases ht
        exact ⟨[], by
          show ((tname, df) :: store).lookup name = some (t ++ [])
          rw [List.append_nil, lookup_cons_ne _ _ _ _ hn]
          exact ht⟩
    | some existing =>
        by_cases hn : name = tname
        · subst hn
          rw [ht] at hlk
          cases hlk
          exact ⟨antiJoinRows df t,
            lookup_updateTable_self store name _ t ht⟩
        · exact ⟨[], by
            show (updateTable store tname _).lookup name = some (t ++ [])
            rw [List.append_nil, lookup_updateTable_ne store tname name _ hn]
            exact ht⟩

/-- C6 witness: one concrete cycle on a one-table store, plus one concrete
append-only write. -/
theorem C6_cursor_monotone_witness :
    (get_latest_block_number "t" "block_number" [("t", [⟨1, 5, 0⟩])]
        ≤ get_latest_block_number "t" "block_number"
            (cycle_writes (fun _ fb => [⟨9, fb, 0⟩]) [("t", "block_number")]
              [("t", [⟨1, 5, 0⟩])]))
    ∧ ∃ extra,
        ((write_to_duckdb [⟨9, 6, 0⟩] "t" [("t", [⟨1, 5, 0⟩])]).1).lookup "t"
          = some ([⟨1, 5, 0⟩] ++ extra) :=
  ⟨(C6_cursor_monotone (fun _ fb => [⟨9, fb, 0⟩]) [("t", "block_number")]
      [("t", [⟨1, 5, 0⟩])] "t" "block_number").1,
   (C6_cursor_monotone (fun _ fb => [⟨9, fb, 0⟩]) [("t", "block_number")]
      [("t", [⟨1, 5, 0⟩])] "t" "block_number").2.2
     [⟨9, 6, 0⟩] "t" [⟨1, 5, 0⟩] (by decide)⟩

/-! ## Generic inner-join lemmas -/

theorem joinBy_cons {X Y Z : Type} (keyX : X → Nat) (keyY : Y → Nat)
    (f : X → Y → Z) (a : X) (A : List X) (B : List Y) :
    joinBy keyX keyY f (a :: A) B
      = (B.filter (fun b => keyY b == keyX a)).map (f a)
        ++ joinBy keyX keyY f A B := by
  rw [joinBy, List.flatMap_cons, joinBy]

/-- With pairwise-distinct keys on the right, each left row matches at most
one right row. -/
theorem length_filter_key_le_one {Y : Type} (keyY : Y → Nat) (B : List Y)
    (k : Nat) (hB : (B.map keyY).Nodup) :
    (B.filter (fun b => keyY b == k)).length ≤ 1 := by
  induction B with
  | nil => simp
  | cons a B ih =>
      rw [List.map_cons, List.nodup_cons] at hB
      by_cases hk : (keyY a == k) = true
      · have hstep : List.filter (fun b => keyY b == k) (a :: B)
            = a :: List.filter (fun b => keyY b == k) B :=
          List.filter_cons_of_pos hk
        rw [hstep]
        have hnil : B.filter (fun b => keyY b == k) = [] := by
          rw [List.filter_eq_nil_iff]
          intro b hb hbk
          have h1 : keyY b = k := by simpa using hbk
          have h2 : keyY a = k := by simpa using hk
          exact hB.1 ((h1.trans h2.symm) ▸ List.mem_map_of_mem keyY hb)
        rw [hnil]
        exact le_refl 1
      · have hstep : List.filter (fun b => keyY b == k) (a :: B)
            = List.filter (fun b => keyY b == k) B :=
          List.filter_cons_of_neg hk
        rw [hstep]
        exact ih hB.2

/-- With distinct right keys, the joined key column is a subsequence of the
left key column (each left row contributes its own key at most once). -/
theorem joinBy_map_key_sublist {X Y Z : Type} (keyX : X → Nat) (keyY : Y → Nat)
    (keyZ : Z → Nat) (f : X → Y → Z) (hf : ∀ a b, keyZ (f a b) = keyX a)
    (A : List X) (B : List Y) (hB : (B.map keyY).Nodup) :
    ((joinBy keyX keyY f A B).map keyZ).Sublist (A.map keyX) := by
  induction A with
  | nil => simp [joinBy]
  | cons a A ih =>
      rw [joinBy_cons, List.map_append, List.map_cons]
      have hlen := length_filter_key_le_one keyY B (keyX a) hB
      cases hF : B.filter (fun b => keyY b == keyX a) with
      | nil =>
          simp only [List.map_nil, List.nil_append]
          exact List.Sublist.cons (keyX a) ih
      | cons b F' =>
          rw [hF] at hlen
          cases F' with
          | cons _ _ => simp at hlen
          | nil =>
              simp only [List.map_cons, List.map_nil, List.cons_append,
                List.nil_append, hf a b]
              exact List.Sublist.cons₂ (keyX a) ih

theorem joinBy_length_le_left {X Y Z : Type} (keyX : X → Nat) (keyY : Y → Nat)
    (f : X → Y → Z) (A : List X) (B : List Y) (hB : (B.map keyY).Nodup) :
    (joinBy keyX keyY f A B).length ≤ A.length := by
  induction A with
  | nil => simp [joinBy]
  | cons a A ih =>
      have h1 := length_filter_key_le_one keyY B (keyX a) hB
      simp only [joinBy_cons, List.length_append, List.length_map,
        List.length_cons]
      omega

theorem length_filter_or {Y : Type} (B : List Y) (p q : Y → Bool)
    (h : ∀ y, p y = true → q y = true → False) :
    (B.filter (fun y => p y || q y)).length
      = (B.filter p).length + (B.filter q).length := by
  induction B with
  | nil => simp
  | cons a B ih =>
      by_cases hp : p a = true
      · have hq : ¬ q a = true := fun hq => h a hp hq
        rw [List.filter_cons_of_pos (by simp [hp]),
          List.filter_cons_of_pos hp, List.filter_cons_of_neg hq]
        simp only [List.length_cons]
        omega
      · by_cases hq : q a = true
        · rw [List.filter_cons_of_pos (by simp [hq]),
            List.filter_cons_of_neg hp, List.filter_cons_of_pos hq]
          simp only [List.length_cons]
          omega
        · rw [List.filter_cons_of_neg (by simp [hp, hq]),
            List.filter_cons_of_neg hp, List.filter_cons_of_neg hq]
          exact ih

/-- With pairwise-distinct left keys, the join consumes pairwise-disjoint
subsets of the right table, so its size is bounded by the right table's. -/
theorem joinBy_length_le_filter {X Y Z : Type} (keyX : X → Nat) (keyY : Y → Nat)
    (f : X → Y → Z) :
    ∀ A : List X, (A.map keyX).Nodup → ∀ B : List Y,
      (joinBy keyX keyY f A B).length
        ≤ (B.filter (fun b => (A.map keyX).contains (keyY b))).length := by
  intro A
  induction A with
  | nil => intro _ B; simp [joinBy]
  | cons a A ih =>
      intro hA B
      rw [List.map_cons, List.nodup_cons] at hA
      have hdisj : ∀ b, (keyY b == keyX a) = true →
          ((A.map keyX).contains (keyY b)) = true → False := by
        intro b h1 h2
        have e : keyY b = keyX a := by simpa using h1
        have hm : keyY b ∈ A.map keyX := List.elem_iff.mp h2
        exact hA.1 (e ▸ hm)
      have hIH := ih hA.2 B
      have hor := length_filter_or B (fun b => keyY b == keyX a)
        (fun b => (A.map keyX).contains (keyY b)) hdisj
      simp only [joinBy_cons, List.length_append, List.length_map,
        List.map_cons, List.contains_cons, hor]
      omega

theorem joinBy_length_le_right {X Y Z : Type} (keyX : X → Nat) (keyY : Y → Nat)
    (f : X → Y → Z) (A : List X) (B : List Y) (hA : (A.map keyX).Nodup) :
    (joinBy keyX keyY f A B).length ≤ B.length :=
  le_trans (joinBy_length_le_filter keyX keyY f A hA B)
    (List.length_filter_le _ B)

theorem mem_joinBy {X Y Z : Type} {keyX : X → Nat} {keyY : Y → Nat}
    {f : X → Y → Z} {A : List X} {B : List Y} {z : Z} :
    z ∈ joinBy keyX keyY f A B
      ↔ ∃ a ∈ A, ∃ b ∈ B, keyY b = keyX a ∧ z = f a b := by
  constructor
  · intro hz
    obtain ⟨a, ha, hz⟩ := List.mem_flatMap.mp hz
    obtain ⟨b, hb, hfb⟩ := List.mem_map.mp hz
    have hbB := (List.mem_filter.mp hb).1
    have hbk : keyY b = keyX a := by
      simpa using (List.mem_filter.mp hb).2
    exact ⟨a, ha, b, hbB, hbk, hfb.symm⟩
  · rintro ⟨a, ha, b, hb, hbk, rfl⟩
    refine List.mem_flatMap.mpr ⟨a, ha, ?_⟩
    exact List.mem_map_of_mem _ (List.mem_filter.mpr ⟨hb, by simpa using hbk⟩)

/-! ## Join engine theorems (C2, C7, C8) -/

/-- Every output row of `join_dataframes` is assembled from one matching row
of each input table. -/
theorem join_dataframes_row_provenance {α β γ : Type} {A : List (EncRow α)}
    {B : List (CommitRow β)} {C : List (ProcRow γ)} {row : Commitment α β}
    (hrow : row ∈ join_dataframes A B C) :
    ∃ a ∈ A, ∃ b ∈ B, ∃ c ∈ C,
      b.commitmentIndex = a.commitmentIndex
      ∧ c.commitmentIndex = a.commitmentIndex
      ∧ row = { block_number_encrypted := a.block_number
                txnHash := '0' :: 'x' :: a.txnHash
                commitmentIndex := a.commitmentIndex
                isSlash := c.isSlash
                encRest := a.rest
                commitRest := b.rest } := by
  have hrow' : row ∈ joinBy (fun p => p.1.commitmentIndex) (fun q => q.1)
      mk_commitment (add0x (join_ec A B)) (proc_select C) := hrow
  obtain ⟨p, hp, q, hq, hqp, rfl⟩ := mem_joinBy.mp hrow'
  obtain ⟨p0, hp0, rfl⟩ := List.mem_map.mp hp
  have hp0' : p0 ∈ joinBy (fun a => a.commitmentIndex)
      (fun b => b.commitmentIndex) Prod.mk A B := hp0
  obtain ⟨a, haA, b, hbB, hab, rfl⟩ := mem_joinBy.mp hp0'
  obtain ⟨c, hcC, rfl⟩ := List.mem_map.mp hq
  exact ⟨a, haA, b, hbB, c, hcC, hab, by simpa using hqp, rfl⟩

theorem join_ec_def {α β : Type} (A : List (EncRow α)) (B : List (CommitRow β)) :
    join_ec A B = joinBy (fun a => a.commitmentIndex)
      (fun b => b.commitmentIndex) Prod.mk A B := rfl

theorem join_dataframes_def {α β γ : Type} (A : List (EncRow α))
    (B : List (CommitRow β)) (C : List (ProcRow γ)) :
    join_dataframes A B C = joinBy (fun p => p.1.commitmentIndex)
      (fun q => q.1) mk_commitment (add0x (join_ec A B)) (proc_select C) := rfl

theorem proc_select_keys {γ : Type} (C : List (ProcRow γ)) :
    (proc_select C).map (fun q => q.1) = C.map (·.commitmentIndex) := by
  simp [proc_select, List.map_map]

theorem add0x_keys {α β : Type} (rows : List (EncRow α × CommitRow β)) :
    (add0x rows).map (fun p => p.1.commitmentIndex)
      = rows.map (fun p => p.1.commitmentIndex) := by
  simp [add0x, List.map_map]

theorem add0x_length {α β : Type} (rows : List (EncRow α × CommitRow β)) :
    (add0x rows).length = rows.length := by
  simp [add0x]

/-- The output key column is a subsequence of `encrypted_stores`' key column
whenever `commit_stores` and `commits_processed` have unique keys. -/
theorem join_dataframes_keys_sublist {α β γ : Type} (A : List (EncRow α))
    (B : List (CommitRow β)) (C : List (ProcRow γ))
    (hB : (B.map (·.commitmentIndex)).Nodup)
    (hC : (C.map (·.commitmentIndex)).Nodup) :
    ((join_dataframes A B C).map (·.commitmentIndex)).Sublist
      (A.map (·.commitmentIndex)) := by
  have hPC : ((proc_select C).map (fun q => q.1)).Nodup := by
    rw [proc_select_keys]; exact hC
  have h1 : ((join_dataframes A B C).map (·.commitmentIndex)).Sublist
      ((add0x (join_ec A B)).map (fun p => p.1.commitmentIndex)) :=
    joinBy_map_key_sublist (fun p => p.1.commitmentIndex) (fun q => q.1)
      (fun r => r.commitmentIndex) mk_commitment (fun _ _ => rfl)
      (add0x (join_ec A B)) (proc_select C) hPC
  have h2 : ((join_ec A B).map (fun p => p.1.commitmentIndex)).Sublist
      (A.map (·.commitmentIndex)) :=
    joinBy_map_key_sublist (fun a => a.commitmentIndex)
      (fun b => b.commitmentIndex) (fun p => p.1.commitmentIndex) Prod.mk
      (fun _ _ => rfl) A B hB
  rw [add0x_keys] at h1
  exact h1.trans h2

/-- C2: with unique keys per input table, `join_dataframes` emits at most
`min(|A|,|B|,|C|)` rows, no output row appears twice, and every output row's
`commitmentIndex` occurs in all three inputs. -/
theorem C2_join_dataframes_bounds {α β γ : Type} (A : List (EncRow α))
    (B : List (CommitRow β)) (C : List (ProcRow γ))
    (hA : (A.map (·.commitmentIndex)).Nodup)
    (hB : (B.map (·.commitmentIndex)).Nodup)
    (hC : (C.map (·.commitmentIndex)).Nodup) :
    (join_dataframes A B C).length ≤ min A.length (min B.length C.length)
    ∧ (join_dataframes A B C).Nodup
    ∧ ∀ row ∈ join_dataframes A B C,
        row.commitmentIndex ∈ A.map (·.commitmentIndex)
        ∧ row.commitmentIndex ∈ B.map (·.commitmentIndex)
        ∧ row.commitmentIndex ∈ C.map (·.commitmentIndex) := by
  have hPC : ((proc_select C).map (fun q => q.1)).Nodup := by
    rw [proc_select_keys]; exact hC
  have hECkeys : ((join_ec A B).map (fun p => p.1.commitmentIndex)).Sublist
      (A.map (·.commitmentIndex)) :=
    joinBy_map_key_sublist (fun a => a.commitmentIndex)
      (fun b => b.commitmentIndex) (fun p => p.1.commitmentIndex) Prod.mk
      (fun _ _ => rfl) A B hB
  have hECnodup : ((join_ec A B).map (fun p => p.1.commitmentIndex)).Nodup :=
    hA.sublist hECkeys
  have hAddNodup : ((add0x (join_ec A B)).map (fun p => p.1.commitmentIndex)).Nodup := by
    rw [add0x_keys]; exact hECnodup
  refine ⟨?_, ?_, ?_⟩
  · have hL1 : (join_dataframes A B C).length ≤ (add0x (join_ec A B)).length := by
      rw [join_dataframes_def]
      exact joinBy_length_le_left (fun p => p.1.commitmentIndex) (fun q => q.1)
        mk_commitment (add0x (join_ec A B)) (proc_select C) hPC
    rw [add0x_length] at hL1
    have hLA : (join_ec A B).length ≤ A.length := by
      rw [join_ec_def]
      exact joinBy_length_le_left (fun a => a.commitmentIndex)
        (fun b => b.commitmentIndex) Prod.mk A B hB
    have hLB : (join_ec A B).length ≤ B.length := by
      rw [join_ec_def]
      exact joinBy_length_le_right (fun a => a.commitmentIndex)
        (fun b => b.commitmentIndex) Prod.mk A B hA
    have hLC : (join_dataframes A B C).length ≤ (proc_select C).length := by
      rw [join_dataframes_def]
      exact joinBy_length_le_right (fun p => p.1.commitmentIndex) (fun q => q.1)
        mk_commitment (add0x (join_ec A B)) (proc_select C) hAddNodup
    have hPCle : (proc_select C).length = C.length := by simp [proc_select]
    refine le_min (le_trans hL1 hLA) (le_min (le_trans hL1 hLB) ?_)
    rw [hPCle] at hLC
    exact hLC
  · refine List.Nodup.of_map (fun r => r.commitmentIndex) ?_
    exact hA.sublist (join_dataframes_keys_sublist A B C hB hC)
  · intro row hrow
    obtain ⟨a, haA, b, hbB, c, hcC, hba, hca, rfl⟩ :=
      join_dataframes_row_provenance hrow
    refine ⟨List.mem_map_of_mem _ haA, ?_, ?_⟩
    · exact List.mem_map.mpr ⟨b, hbB, hba⟩
    · exact List.mem_map.mpr ⟨c, hcC, hca⟩

/-- C2 witness: three one-row tables sharing key 1. -/
theorem C2_join_dataframes_bounds_witness :
    (join_dataframes [EncRow.mk 1 10 ['a'] 0] [CommitRow.mk 1 0]
        [ProcRow.mk 1 true 0]).length
      ≤ min (List.length [EncRow.mk 1 10 ['a'] 0])
          (min (List.length [CommitRow.mk 1 0])
            (List.length [ProcRow.mk 1 true 0]))
    ∧ (join_dataframes [EncRow.mk 1 10 ['a'] 0] [CommitRow.mk 1 0]
        [ProcRow.mk 1 true 0]).Nodup
    ∧ ∀ row ∈ join_dataframes [EncRow.mk 1 10 ['a'] 0] [CommitRow.mk 1 0]
        [ProcRow.mk 1 true 0],
        row.commitmentIndex ∈ [EncRow.mk 1 10 ['a'] 0].map (·.commitmentIndex)
        ∧ row.commitmentIndex ∈ [CommitRow.mk 1 0].map (·.commitmentIndex)
        ∧ row.commitmentIndex ∈ [ProcRow.mk 1 true 0].map (·.commitmentIndex) :=
  C2_join_dataframes_bounds [EncRow.mk 1 10 ['a'] 0] [CommitRow.mk 1 0]
    [ProcRow.mk 1 true 0] (by decide) (by decide) (by decide)

/-- C7: whenever the three tables share a `commitmentIndex`, every output
row's `txnHash` starts with `"0x"` — and it is literally `"0x"` prepended to
the matching `encrypted_stores` row's `txnHash`, whether or not that input
already carried the prefix. -/
theorem C7_txnHash_prefixed {α β γ : Type} (A : List (EncRow α))
    (B : List (CommitRow β)) (C : List (ProcRow γ))
    (_hshare : ∃ k, k ∈ A.map (·.commitmentIndex)
      ∧ k ∈ B.map (·.commitmentIndex) ∧ k ∈ C.map (·.commitmentIndex)) :
    ∀ row ∈ join_dataframes A B C,
      row.txnHash.take 2 = ['0', 'x']
      ∧ ∃ a ∈ A, row.txnHash = '0' :: 'x' :: a.txnHash := by
  intro row hrow
  obtain ⟨a, haA, b, hbB, c, hcC, hba, hca, rfl⟩ :=
    join_dataframes_row_provenance hrow
  exact ⟨rfl, a, haA, rfl⟩

/-- C7 witness: an input `txnHash` that already carries the prefix is
prefixed again, at the one concrete output row. -/
theorem C7_txnHash_prefixed_witness :
    (Commitment.mk 10 ['0', 'x', '0', 'x', 'a'] 1 true 0 0).txnHash.take 2
      = ['0', 'x']
    ∧ ∃ a ∈ [EncRow.mk 1 10 ['0', 'x', 'a'] 0],
        (Commitment.mk 10 ['0', 'x', '0', 'x', 'a'] 1 true 0
          0).txnHash = '0' :: 'x' :: a.txnHash :=
  C7_txnHash_prefixed [EncRow.mk 1 10 ['0', 'x', 'a'] 0] [CommitRow.mk 1 0]
    [ProcRow.mk 1 true 0] ⟨1, by decide, by decide, by decide⟩
    (Commitment.mk 10 ['0', 'x', '0', 'x', 'a'] 1 true 0 0) (by decide)

/-- C8 counterexample: the fixed projection list of the source's final
`select` has 18 column names, not 17. -/
theorem C8_columns_counterexample : ¬ commitments_columns.length = 17 := by
  decide

/-- C8 (amended): the commitments view is projected to a fixed, ordered
column list of exactly 18 named columns, led by `block_number_encrypted`,
which carries the matching `encrypted_stores` row's `block_number`; the
unrenamed `block_number` column is not part of the projection. -/
theorem C8_fixed_projection {α β γ : Type} (A : List (EncRow α))
    (B : List (CommitRow β)) (C : List (ProcRow γ)) :
    commitments_columns.length = 18
    ∧ commitments_columns.head? = some "block_number_encrypted"
    ∧ "block_number" ∉ commitments_columns
    ∧ ∀ row ∈ join_dataframes A B C, ∃ a ∈ A,
        a.commitmentIndex = row.commitmentIndex
        ∧ row.block_number_encrypted = a.block_number := by
  refine ⟨rfl, rfl, by decide, ?_⟩
  intro row hrow
  obtain ⟨a, haA, b, hbB, c, hcC, hba, hca, rfl⟩ :=
    join_dataframes_row_provenance hrow
  exact ⟨a, haA, rfl, rfl⟩

/-- C8 witness: the projection facts and the rename at a concrete one-row
input's concrete output row. -/
theorem C8_fixed_projection_witness :
    commitments_columns.length = 18
    ∧ ∃ a ∈ [EncRow.mk 1 10 ['a'] 0],
        a.commitmentIndex
          = (Commitment.mk 10 ['0', 'x', 'a'] 1 true 0 0).commitmentIndex
        ∧ (Commitment.mk 10 ['0', 'x', 'a'] 1 true 0 0).block_number_encrypted
          = a.block_number :=
  ⟨(C8_fixed_projection [EncRow.mk 1 10 ['a'] 0] [CommitRow.mk 1 0]
      [ProcRow.mk 1 true 0]).1,
   (C8_fixed_projection [EncRow.mk 1 10 ['a'] 0] [CommitRow.mk 1 0]
      [ProcRow.mk 1 true 0]).2.2.2
     (Commitment.mk 10 ['0', 'x', 'a'] 1 true 0 0) (by decide)⟩

/-! ## Retry policy theorems (C4, C9, C10) -/

/-- Given `N` lock conflicts followed by a success, with enough fuel left: the loop
returns the read value after `N + 1` attempts, having slept the geometric
series of delays. -/
theorem readLoop_success {α ε : Type} (info : ε) (env : Nat → Attempt α)
    (maxR : Int) (f : ℚ) (a : α) :
    ∀ (k fuel attempt : Nat) (delay waited : ℚ), k < fuel →
      (∀ i, i < k → env (attempt + i) = .lockConflict) →
      env (attempt + k) = .ok a →
      readLoop info env maxR f fuel attempt delay waited
        = .success a (attempt + k + 1) (waited + delay * geomSeries f k) := by
  intro k
  induction k with
  | zero =>
      intro fuel attempt delay waited hk hlock hok
      cases fuel with
      | zero => omega
      | succ fuel =>
          have hok' : env attempt = .ok a := by simpa using hok
          simp [readLoop, hok', geomSeries]
  | succ k ih =>
      intro fuel attempt delay waited hk hlock hok
      cases fuel with
      | zero => omega
      | succ fuel =>
          have h0 : env attempt = .lockConflict := by
            simpa using hlock 0 (Nat.succ_pos k)
          simp only [readLoop, h0]
          have hlock' : ∀ i, i < k → env (attempt + 1 + i) = .lockConflict := by
            intro i hi
            have := hlock (i + 1) (by omega)
            rwa [show attempt + (i + 1) = attempt + 1 + i by omega] at this
          have hok' : env (attempt + 1 + k) = .ok a := by
            rwa [show attempt + (k + 1) = attempt + 1 + k by omega] at hok
          rw [ih fuel (attempt + 1) (delay * f) (waited + delay) (by omega)
            hlock' hok']
          congr 1
          · omega
          · rw [geomSeries]; ring

/-- Lock conflicts on every remaining attempt: the loop exhausts its fuel and
returns the terminal failure, having slept the full geometric series. -/
theorem readLoop_exhaust {α ε : Type} (info : ε) (env : Nat → Attempt α)
    (maxR : Int) (f : ℚ) :
    ∀ (fuel attempt : Nat) (delay waited : ℚ),
      (∀ i, i < fuel → env (attempt + i) = .lockConflict) →
      readLoop info env maxR f fuel attempt delay waited
        = .lockFailure info maxR (waited + delay * geomSeries f fuel) := by
  intro fuel
  induction fuel with
  | zero =>
      intro attempt delay waited _
      simp [readLoop, geomSeries]
  | succ fuel ih =>
      intro attempt delay waited h
      have h0 : env attempt = .lockConflict := by
        simpa using h 0 (Nat.succ_pos fuel)
      simp only [readLoop, h0]
      rw [ih (attempt + 1) (delay * f) (waited + delay) (fun i hi => by
        have := h (i + 1) (by omega)
        rwa [show attempt + (i + 1) = attempt + 1 + i by omega] at this)]
      congr 1
      rw [geomSeries]; ring

/-- C4: for both `read_db` and `read_single_table`, `N` consecutive
lock-conflict attempts followed by a success (with `N < max_retries`) yield
the read value after exactly `N + 1` attempts with total wait
`initial_delay * (1 + f + ... + f^(N-1))`; and lock conflicts on every
attempt up to `max_retries` yield the terminal failure naming the database
(and table) and the attempt bound, after the full geometric wait. -/
theorem C4_retry_policy {α : Type} (db table : String) (tables : List String)
    (envS envF : Nat → Attempt α) (maxR : Int) (d f : ℚ) (N : Nat) (a : α)
    (hN : (N : Int) < maxR)
    (hlock : ∀ i, i < N → envS i = .lockConflict)
    (hok : envS N = .ok a)
    (hfail : ∀ i, i < maxR.toNat → envF i = .lockConflict) :
    read_db db tables envS maxR d f
        = .success a (N + 1) (d * geomSeries f N)
    ∧ read_single_table db table envS maxR d f
        = .success a (N + 1) (d * geomSeries f N)
    ∧ read_db db tables envF maxR d f
        = .lockFailure db maxR (d * geomSeries f maxR.toNat)
    ∧ read_single_table db table envF maxR d f
        = .lockFailure (table, db) maxR (d * geomSeries f maxR.toNat) := by
  have hNf : N < maxR.toNat := by omega
  have hlockz : ∀ i, i < N → envS (0 + i) = .lockConflict := by
    intro i hi; simpa using hlock i hi
  have hokz : envS (0 + N) = .ok a := by simpa using hok
  have hfailz : ∀ i, i < maxR.toNat → envF (0 + i) = .lockConflict := by
    intro i hi; simpa using hfail i hi
  refine ⟨?_, ?_, ?_, ?_⟩
  · rw [read_db, readLoop_success db envS maxR f a N maxR.toNat 0 d 0 hNf
      hlockz hokz]
    norm_num
  · rw [read_single_table, readLoop_success (table, db) envS maxR f a N
      maxR.toNat 0 d 0 hNf hlockz hokz]
    norm_num
  · rw [read_db, readLoop_exhaust db envF maxR f maxR.toNat 0 d 0 hfailz]
    norm_num
  · rw [read_single_table, readLoop_exhaust (table, db) envF maxR f
      maxR.toNat 0 d 0 hfailz]
    norm_num

/-- C4 witness: two lock conflicts then a successful read, against
`max_retries = 5`, and a permanently locked database. -/
theorem C4_retry_policy_witness :
    read_db "mev_commit.duckdb" ["commit_stores"]
        (fun i => if i < 2 then Attempt.lockConflict else Attempt.ok 42) 5 1 2
      = .success 42 (2 + 1) (1 * geomSeries 2 2)
    ∧ read_single_table "mev_commit.duckdb" "commit_stores"
        (fun i => if i < 2 then Attempt.lockConflict else Attempt.ok 42) 5 1 2
      = .success 42 (2 + 1) (1 * geomSeries 2 2)
    ∧ read_db "mev_commit.duckdb" ["commit_stores"]
        (fun _ => (Attempt.lockConflict : Attempt Nat)) 5 1 2
      = .lockFailure "mev_commit.duckdb" 5 (1 * geomSeries 2 (Int.toNat 5))
    ∧ read_single_table "mev_commit.duckdb" "commit_stores"
        (fun _ => (Attempt.lockConflict : Attempt Nat)) 5 1 2
      = .lockFailure ("commit_stores", "mev_commit.duckdb") 5
          (1 * geomSeries 2 (Int.toNat 5)) :=
  C4_retry_policy "mev_commit.duckdb" "commit_stores" ["commit_stores"]
    (fun i => if i < 2 then Attempt.lockConflict else Attempt.ok 42)
    (fun _ => (Attempt.lockConflict : Attempt Nat)) 5 1 2 2 42
    (by norm_num) (fun i hi => by simp [hi]) (by simp) (fun _ _ => rfl)

/-- C9: `load_and_join_data` is a total function into DataFrames: whenever
the underlying read does not succeed (it raised), the result is the empty
DataFrame — and a successful read of three empty tables returns the empty
DataFrame as well, so an empty result is ambiguous between "no data" and
"an error occurred". -/
theorem C9_load_and_join_swallows {α β γ : Type} (db : String)
    (tables : List String)
    (env : Nat → Attempt (List (EncRow α) × List (CommitRow β) × List (ProcRow γ))) :
    ((∀ res n w, read_db db tables env 5 1 2 ≠ ReadResult.success res n w) →
      load_and_join_data db tables env = [])
    ∧ load_and_join_data db tables
        (fun _ => Attempt.ok (([] : List (EncRow α)), ([] : List (CommitRow β)),
          ([] : List (ProcRow γ)))) = [] := by
  constructor
  · intro h
    rw [load_and_join_data]
    cases hr : read_db db tables env 5 1 2 with
    | success res n w => exact absurd hr (h res n w)
    | lockFailure i m w => rfl
    | ioError w => rfl
  · rfl

/-- C9 witness: a read that raises a non-lock error is swallowed into an
empty DataFrame. -/
theorem C9_load_and_join_swallows_witness :
    load_and_join_data "mev_commit.duckdb" ["encrypted_stores"]
      (fun _ => (Attempt.otherError :
        Attempt (List (EncRow Nat) × List (CommitRow Nat) × List (ProcRow Nat))))
      = [] :=
  (C9_load_and_join_swallows "mev_commit.duckdb" ["encrypted_stores"]
      (fun _ => Attempt.otherError)).1
    (fun _ _ _ hcon => ReadResult.noConfusion hcon)

/-- C10: with `max_retries ≤ 0` the `while` guard is false at once, so both
readers raise the terminal lock failure with zero attempts made, zero wait,
and without consulting the database at all — the outcome is independent of
the read oracle, even one that would always succeed. -/
theorem C10_nonpositive_retries {α : Type} (db table : String)
    (tables : List String) (env env' : Nat → Attempt α) (maxR : Int)
    (d f : ℚ) (h : maxR ≤ 0) :
    read_db db tables env maxR d f = .lockFailure db maxR 0
    ∧ read_single_table db table env maxR d f = .lockFailure (table, db) maxR 0
    ∧ read_db db tables env maxR d f = read_db db tables env' maxR d f := by
  have h0 : maxR.toNat = 0 := Int.toNat_of_nonpos h
  refine ⟨?_, ?_, ?_⟩
  · rw [read_db, h0, readLoop]
  · rw [read_single_table, h0, readLoop]
  · rw [read_db, read_db, h0, readLoop, readLoop]

/-- C10 witness: `max_retries = -1` against an always-successful read. -/
theorem C10_nonpositive_retries_witness :
    read_db "mev_commit.duckdb" ["commits_processed"]
        (fun _ => Attempt.ok (0 : Nat)) (-1) 1 2
      = .lockFailure "mev_commit.duckdb" (-1) 0
    ∧ read_single_table "mev_commit.duckdb" "commits_processed"
        (fun _ => Attempt.ok (0 : Nat)) (-1) 1 2
      = .lockFailure ("commits_processed", "mev_commit.duckdb") (-1) 0 :=
  ⟨(C10_nonpositive_retries "mev_commit.duckdb" "commits_processed"
      ["commits_processed"] (fun _ => Attempt.ok (0 : Nat))
      (fun _ => Attempt.ok (0 : Nat)) (-1) 1 2 (by norm_num)).1,
   (C10_nonpositive_retries "mev_commit.duckdb" "commits_processed"
      ["commits_processed"] (fun _ => Attempt.ok (0 : Nat))
      (fun _ => Attempt.ok (0 : Nat)) (-1) 1 2 (by norm_num)).2.1⟩

end PreconfAnalytics
